import Mathlib

/-!
Engram context-graph: verification of the core domain logic.

Shallow embedding of the pure domain modules of the Engram repository
(`src/context_graph/domain/*` and the access-count bookkeeping of the
Neo4j adapter), together with proofs of the spec claims about them.

Modelling conventions used throughout:

* Python `datetime` values are modelled by `PyDateTime`: the wall-clock
  reading as epoch milliseconds plus an optional timezone offset in
  minutes (`none` = naive).  `replace(tzinfo=UTC)` corresponds to
  interpreting the wall reading itself as the instant, which is what
  `PyDateTime.instant` does for naive values.
* Python floats are modelled as exact rationals (`ℚ`), except the
  scoring engine where the spec's real-analytic claims are stated over
  `ℝ`.
* Python dicts with string keys are modelled as association lists with
  insert-or-overwrite semantics, or as structures with `Option` fields
  when the source reads keys through `dict.get` with a default.
-/

namespace Engram

/-- Python `datetime`: wall-clock reading in epoch milliseconds and an
optional UTC offset in minutes (`none` models a naive datetime). -/
structure PyDateTime where
  wall : Int
  tzOffsetMin : Option Int
deriving DecidableEq, Repr

/-- The absolute instant (epoch ms) of a datetime; a naive value is read
as UTC, matching `replace(tzinfo=UTC)` in the source. -/
def PyDateTime.instant (d : PyDateTime) : Int :=
  d.wall - (d.tzOffsetMin.getD 0) * 60000

/-- True iff the datetime carries timezone information. -/
def PyDateTime.isAware (d : PyDateTime) : Bool :=
  d.tzOffsetMin.isSome

/-- Event envelope, after `context_graph.domain.models.Event` (the
Pydantic model guarantees all required fields are present, so the
structure has no missing-field state). -/
structure Event where
  event_id : String
  event_type : String
  occurred_at : PyDateTime
  session_id : String
  agent_id : String
  trace_id : String
  payload_ref : String
  global_position : Option String
  tool_name : Option String
  parent_event_id : Option String
  ended_at : Option PyDateTime
  importance_hint : Option Int
deriving DecidableEq, Repr

/-! ## Validation (`context_graph/domain/validation.py`) -/

def MAX_PAYLOAD_REF_LENGTH : Nat := 2048

def MAX_FUTURE_DRIFT_SECONDS : Int := 300

def isLowerAlphaChar (c : Char) : Bool := 'a' ≤ c && c ≤ 'z'

def isDigitChar (c : Char) : Bool := '0' ≤ c && c ≤ '9'

/-- First segment of the dot-namespace pattern: `[a-z][a-z0-9]*`. -/
def firstSegOk (s : List Char) : Bool :=
  match s with
  | [] => false
  | c :: rest => isLowerAlphaChar c && rest.all (fun d => isLowerAlphaChar d || isDigitChar d)

/-- Later segments of the dot-namespace pattern: `[a-z][a-z0-9_]*`. -/
def laterSegOk (s : List Char) : Bool :=
  match s with
  | [] => false
  | c :: rest =>
      isLowerAlphaChar c && rest.all (fun d => isLowerAlphaChar d || isDigitChar d || d == '_')

/-- Full match of `^[a-z][a-z0-9]*(\.[a-z][a-z0-9_]*)+$` against a string
with no trailing newline. -/
def eventTypePlainMatch (s : String) : Bool :=
  match s.splitOn "." with
  | [] => false
  | first :: rest =>
      firstSegOk first.toList && !rest.isEmpty && rest.all (fun seg => laterSegOk seg.toList)

/-- Source `EVENT_TYPE_PATTERN.match`: Python's `$` also matches just before a
single trailing newline, so one trailing newline is tolerated. -/
def eventTypeMatch (s : String) : Bool :=
  if s.toList.getLast? = some '\n' then
    eventTypePlainMatch (String.mk s.toList.dropLast)
  else
    eventTypePlainMatch s

/-- The dot-namespace check of `validate_event`. -/
def vErrType (e : Event) : List (String × String) :=
  if eventTypeMatch e.event_type then []
  else [("event_type",
         "Must be dot-namespaced (e.g., 'agent.invoke'), got '" ++ e.event_type ++ "'")]

/-- The future-drift check of `validate_event`: evaluated only when
`occurred_at` carries timezone information. -/
def vErrDrift (e : Event) (now_ms : Int) : List (String × String) :=
  match e.occurred_at.tzOffsetMin with
  | some _ =>
      if e.occurred_at.instant - now_ms > MAX_FUTURE_DRIFT_SECONDS * 1000 then
        [("occurred_at",
          "Event timestamp is " ++ toString ((e.occurred_at.instant - now_ms) / 1000) ++
          "s in the future (max 300s)")]
      else []
  | none => []

/-- The self-parent check of `validate_event`. -/
def vErrParent (e : Event) : List (String × String) :=
  match e.parent_event_id with
  | some p =>
      if p = e.event_id then
        [("parent_event_id", "Cannot reference own event_id as parent")]
      else []
  | none => []

/-- The `ended_at ≥ occurred_at` check of `validate_event`. -/
def vErrEnded (e : Event) : List (String × String) :=
  match e.ended_at with
  | some ed =>
      if ed.instant < e.occurred_at.instant then
        [("ended_at", "ended_at must be >= occurred_at")]
      else []
  | none => []

/-- The `payload_ref` length check of `validate_event`. -/
def vErrPayload (e : Event) : List (String × String) :=
  if e.payload_ref.length > MAX_PAYLOAD_REF_LENGTH then
    [("payload_ref", "payload_ref exceeds max length of 2048")]
  else []

/-- Source `validate_event`: the collected `(field, message)` error list.  The
five checks run in source order; messages keep the static parts of the
source f-strings (interpolated numbers are rendered in decimal). -/
def validate_event (e : Event) (now_ms : Int) : List (String × String) :=
  vErrType e ++ vErrDrift e now_ms ++ vErrParent e ++ vErrEnded e ++ vErrPayload e

/-- Source `ValidationResult.is_valid`. -/
def is_valid (errors : List (String × String)) : Bool :=
  errors.length == 0

/-- Python comparison of `ended_at` with `occurred_at` is only defined
when both are naive or both aware; the embedding's theorems assume it. -/
def tzConsistent (e : Event) : Bool :=
  match e.ended_at with
  | some ed => ed.isAware == e.occurred_at.isAware
  | none => true

/-- Source `ended_at < occurred_at` (false when `ended_at` is absent). -/
def endedLtOcc (e : Event) : Bool :=
  match e.ended_at with
  | some ed => ed.instant < e.occurred_at.instant
  | none => false

/-- The four rules other than the future-drift check. -/
def otherRulesOk (e : Event) : Bool :=
  eventTypeMatch e.event_type &&
  (match e.parent_event_id with | some p => !(p = e.event_id) | none => true) &&
  (match e.ended_at with | some ed => !(ed.instant < e.occurred_at.instant) | none => true) &&
  !(e.payload_ref.length > MAX_PAYLOAD_REF_LENGTH)

/-! ## Projection (`context_graph/domain/projection.py`) -/

inductive EdgeType where
  | FOLLOWS
  | CAUSED_BY
deriving DecidableEq, Repr

inductive CausalMechanism where
  | DIRECT
  | INFERRED
deriving DecidableEq, Repr

/-- Source `models.Edge`, with the `properties` dict flattened into the three
optional keys the projector ever writes. -/
structure Edge where
  source : String
  target : String
  edge_type : EdgeType
  session_id : Option String := none
  delta_ms : Option Int := none
  mechanism : Option CausalMechanism := none
deriving DecidableEq, Repr

/-- Source `models.EventNode` as initialized by `event_to_node`. -/
structure EventNode where
  event_id : String
  event_type : String
  occurred_at : PyDateTime
  session_id : String
  agent_id : String
  trace_id : String
  tool_name : Option String
  global_position : String
  importance_score : Option Int
deriving DecidableEq, Repr

structure ProjectionResult where
  node : EventNode
  edges : List Edge
deriving DecidableEq, Repr

/-- Source `event_to_node`; `none` models the `ValueError` raised when
`global_position` is unset. -/
def event_to_node (e : Event) : Option EventNode :=
  match e.global_position with
  | none => none
  | some gp =>
      some { event_id := e.event_id, event_type := e.event_type,
             occurred_at := e.occurred_at, session_id := e.session_id,
             agent_id := e.agent_id, trace_id := e.trace_id,
             tool_name := e.tool_name, global_position := gp,
             importance_score := e.importance_hint }

/-- Source `_compute_delta_ms`: both timestamps are made timezone-aware (naive
is read as UTC) and the difference is taken in milliseconds. -/
def compute_delta_ms (earlier later : Event) : Int :=
  later.occurred_at.instant - earlier.occurred_at.instant

/-- Source `compute_follows_edge`. -/
def compute_follows_edge (prev_event curr_event : Event) : Edge :=
  { source := curr_event.event_id,
    target := prev_event.event_id,
    edge_type := EdgeType.FOLLOWS,
    session_id := some curr_event.session_id,
    delta_ms := some (compute_delta_ms prev_event curr_event) }

/-- Source `compute_caused_by_edge`. -/
def compute_caused_by_edge (e : Event) : Option Edge :=
  match e.parent_event_id with
  | none => none
  | some p =>
      some { source := e.event_id, target := p,
             edge_type := EdgeType.CAUSED_BY,
             mechanism := some CausalMechanism.DIRECT }

/-- Source `project_event`; `none` propagates the missing-`global_position`
error of `event_to_node`. -/
def project_event (e : Event) (prev_event : Option Event) : Option ProjectionResult :=
  (event_to_node e).map fun node =>
    let followsEdges :=
      match prev_event with
      | some prev => if prev.session_id = e.session_id then [compute_follows_edge prev e] else []
      | none => []
    let causedEdges :=
      match compute_caused_by_edge e with
      | some ce => [ce]
      | none => []
    { node := node, edges := followsEdges ++ causedEdges }

/-- The FOLLOWS edges of an edge list. -/
def followsOf (edges : List Edge) : List Edge :=
  edges.filter (fun e => e.edge_type = EdgeType.FOLLOWS)

/-! ## Scoring (`context_graph/domain/scoring.py`)

Datetimes enter `compute_recency_score` only through differences of
`total_seconds()`, so the embedding takes them as real-valued epoch
seconds. -/

/-- Source `compute_recency_score`: Ebbinghaus forgetting curve
`R = exp(-t / S)` with `S = s_base + access_count * s_boost` and `t` the
hours since the later of `occurred_at` and `last_accessed_at`, clamped
to be nonnegative. -/
noncomputable def compute_recency_score (occurred_at : ℝ) (access_count : ℕ)
    (s_base s_boost : ℝ) (now : ℝ) (last_accessed_at : Option ℝ) : ℝ :=
  let effective_time :=
    match last_accessed_at with
    | some la => max occurred_at la
    | none => occurred_at
  let t_hours := max 0 ((now - effective_time) / 3600)
  let stability := s_base + access_count * s_boost
  if stability ≤ 0 then 0 else Real.exp (-t_hours / stability)

/-! ## Forgetting (`context_graph/domain/forgetting.py`)

Timestamps are epoch milliseconds; `occurred_at` is `none` when the
event dict lacks the key.  Keys read through `dict.get` with a default
(and `get(...) or 0`, which sends both a missing key and `None` to 0)
become `Option` fields read through `getD`. -/

inductive RetentionTier where
  | HOT
  | WARM
  | COLD
  | ARCHIVE
deriving DecidableEq, Repr

structure PruneEvent where
  event_id : String
  occurred_at : Option Int
  importance_score : Option Int
  access_count : Option Int
  similarity_score : Option ℚ
deriving DecidableEq, Repr

/-- Source `classify_retention_tier`: age in hours against the tier bounds. -/
def classify_retention_tier (occurred_at_ms now_ms : Int)
    (hot_hours warm_hours cold_hours : Int) : RetentionTier :=
  let age_hours : ℚ := ((now_ms - occurred_at_ms : Int) : ℚ) / 3600000
  if age_hours < (hot_hours : ℚ) then RetentionTier.HOT
  else if age_hours < (warm_hours : ℚ) then RetentionTier.WARM
  else if age_hours < (cold_hours : ℚ) then RetentionTier.COLD
  else RetentionTier.ARCHIVE

/-- Source `should_prune_warm`. -/
def should_prune_warm (e : PruneEvent) (warm_min_similarity : ℚ) : Bool :=
  e.similarity_score.getD 1 < warm_min_similarity

/-- Source `should_prune_cold`: pruned only when BOTH thresholds fail. -/
def should_prune_cold (e : PruneEvent)
    (cold_min_importance cold_min_access_count : Int) : Bool :=
  e.importance_score.getD 0 < cold_min_importance &&
  e.access_count.getD 0 < cold_min_access_count

/-- A batch event is marked for SIMILAR_TO-edge deletion (default
parameters) iff it has a timestamp and a nonempty id, falls in the WARM
tier, and its similarity score is below 0.7. -/
def warmMarked (now_ms : Int) (e : PruneEvent) : Bool :=
  match e.occurred_at with
  | some occ =>
      decide (e.event_id ≠ "") &&
      (classify_retention_tier occ now_ms 24 168 720 == RetentionTier.WARM) &&
      should_prune_warm e (7 / 10)
  | none => false

/-- A batch event's node is marked for deletion (default parameters) iff
it has a timestamp and a nonempty id, falls in the COLD tier, and BOTH
`importance_score < 5` and `access_count < 3` hold. -/
def coldMarked (now_ms : Int) (e : PruneEvent) : Bool :=
  match e.occurred_at with
  | some occ =>
      decide (e.event_id ≠ "") &&
      (classify_retention_tier occ now_ms 24 168 720 == RetentionTier.COLD) &&
      (decide (e.importance_score.getD 0 < 5) && decide (e.access_count.getD 0 < 3))
  | none => false

/-- A batch event is marked for archival (default parameters) iff it has
a timestamp and a nonempty id and falls in the ARCHIVE tier — no other
condition. -/
def archiveMarked (now_ms : Int) (e : PruneEvent) : Bool :=
  match e.occurred_at with
  | some occ =>
      decide (e.event_id ≠ "") &&
      (classify_retention_tier occ now_ms 24 168 720 == RetentionTier.ARCHIVE)
  | none => false

structure PruningActions where
  delete_edges : List String
  delete_nodes : List String
  archive_event_ids : List String
deriving DecidableEq, Repr

/-- One iteration of the `get_pruning_actions` loop. -/
def pruneStep (hot_hours warm_hours cold_hours : Int) (warm_min_similarity : ℚ)
    (cold_min_importance cold_min_access_count : Int) (now_ms : Int)
    (acts : PruningActions) (e : PruneEvent) : PruningActions :=
  match e.occurred_at with
  | none => acts
  | some occ =>
      if e.event_id = "" then acts
      else
        match classify_retention_tier occ now_ms hot_hours warm_hours cold_hours with
        | RetentionTier.HOT => acts
        | RetentionTier.WARM =>
            if should_prune_warm e warm_min_similarity then
              { acts with delete_edges := acts.delete_edges ++ [e.event_id] }
            else acts
        | RetentionTier.COLD =>
            if should_prune_cold e cold_min_importance cold_min_access_count then
              { acts with delete_nodes := acts.delete_nodes ++ [e.event_id] }
            else acts
        | RetentionTier.ARCHIVE =>
            { acts with archive_event_ids := acts.archive_event_ids ++ [e.event_id] }

/-- Source `get_pruning_actions` (parameter defaults of the source are passed
explicitly by callers below: 24 / 168 / 720 h, 0.7, 5, 3). -/
def get_pruning_actions (events : List PruneEvent)
    (hot_hours warm_hours cold_hours : Int) (warm_min_similarity : ℚ)
    (cold_min_importance cold_min_access_count : Int) (now_ms : Int) : PruningActions :=
  events.foldl
    (pruneStep hot_hours warm_hours cold_hours warm_min_similarity
      cold_min_importance cold_min_access_count now_ms)
    ⟨[], [], []⟩

/-! ## Intent classification (`context_graph/domain/intent.py`) -/

inductive IntentType where
  | WHY
  | WHEN
  | WHAT
  | RELATED
  | WHO_IS
  | HOW_DOES
  | PERSONALIZE
  | GENERAL
deriving DecidableEq, Repr

/-- Source `_INTENT_KEYWORDS`, in source (dict insertion) order. -/
def INTENT_KEYWORDS : List (IntentType × List String) :=
  [(IntentType.WHY, ["why", "because", "caused", "reason", "root cause", "due to"]),
   (IntentType.WHEN, ["when", "timeline", "before", "after", "sequence", "order", "time"]),
   (IntentType.WHAT, ["what", "describe", "explain", "definition", "meaning"]),
   (IntentType.RELATED, ["similar", "related", "like", "compare", "associated"]),
   (IntentType.WHO_IS, ["who", "person", "user", "team", "member", "author"]),
   (IntentType.HOW_DOES, ["how", "process", "method", "approach", "workflow", "steps"]),
   (IntentType.PERSONALIZE, ["prefer", "favorite", "style", "personalize", "customize"])]

/-- Python `kw in query_lower`: contiguous-substring test. -/
def substrMatch (kw q : String) : Bool :=
  decide (kw.toList <:+: q.toList)

/-- The `scores` dict of `classify_intent` before normalization: every
intent with at least one keyword match scores `min(1.0, matches * 0.4)`. -/
def rawIntentScores (query : String) : List (IntentType × ℚ) :=
  let query_lower := query.toLower
  INTENT_KEYWORDS.filterMap fun p =>
    let match_count := (p.2.filter (fun kw => substrMatch kw query_lower)).length
    if match_count > 0 then some (p.1, min 1 ((match_count : ℚ) * (2 / 5))) else none

/-- Source `classify_intent`. -/
def classify_intent (query : String) : List (IntentType × ℚ) :=
  let scores := rawIntentScores query
  if scores.isEmpty then [(IntentType.GENERAL, 1 / 2)]
  else
    let max_score := ((scores.map Prod.snd).max?).getD 0
    if max_score > 0 then scores.map (fun p => (p.1, p.2 / max_score)) else scores

/-- Ordered insert used by `pySort`; an element is placed before the
first list element it compares `le` to, so earlier elements precede
later equal ones. -/
def insertOrd {α : Type} (le : α → α → Bool) (x : α) : List α → List α
  | [] => [x]
  | y :: ys => if le x y then x :: y :: ys else y :: insertOrd le x ys

/-- Stable sort (insertion sort), modelling Python's stable `sorted` /
`list.sort`; on a total preorder it agrees with any stable sort. -/
def pySort {α : Type} (le : α → α → Bool) : List α → List α
  | [] => []
  | x :: xs => insertOrd le x (pySort le xs)

/-! ## SHA-256 (the `hashlib.sha256` used by consolidation)

Standard FIPS 180-4 SHA-256 over byte lists; 32-bit words are `Nat`
values reduced mod `2 ^ 32`. -/

namespace Sha256

def M32 : Nat := 2 ^ 32

def add32 (a b : Nat) : Nat := (a + b) % M32

def rotr32 (n x : Nat) : Nat := ((x >>> n) ||| (x <<< (32 - n))) % M32

def xor3 (a b c : Nat) : Nat := (a ^^^ b) ^^^ c

def not32 (x : Nat) : Nat := (M32 - 1) ^^^ x

/-- Initial hash state `H0` (FIPS 180-4 section 5.3.3, uppercase hex). -/
def H0 : List Nat :=
  [0x6A09E667, 0xBB67AE85, 0x3C6EF372, 0xA54FF53A,
   0x510E527F, 0x9B05688C, 0x1F83D9AB, 0x5BE0CD19]

/-- Round constants `K` (FIPS 180-4 section 4.2.2, uppercase hex). -/
def K : List Nat :=
  [0x428A2F98, 0x71374491, 0xB5C0FBCF, 0xE9B5DBA5, 0x3956C25B, 0x59F111F1,
   0x923F82A4, 0xAB1C5ED5, 0xD807AA98, 0x12835B01, 0x243185BE, 0x550C7DC3,
   0x72BE5D74, 0x80DEB1FE, 0x9BDC06A7, 0xC19BF174, 0xE49B69C1, 0xEFBE4786,
   0x0FC19DC6, 0x240CA1CC, 0x2DE92C6F, 0x4A7484AA, 0x5CB0A9DC, 0x76F988DA,
   0x983E5152, 0xA831C66D, 0xB00327C8, 0xBF597FC7, 0xC6E00BF3, 0xD5A79147,
   0x06CA6351, 0x14292967, 0x27B70A85, 0x2E1B2138, 0x4D2C6DFC, 0x53380D13,
   0x650A7354, 0x766A0ABB, 0x81C2C92E, 0x92722C85, 0xA2BFE8A1, 0xA81A664B,
   0xC24B8B70, 0xC76C51A3, 0xD192E819, 0xD6990624, 0xF40E3585, 0x106AA070,
   0x19A4C116, 0x1E376C08, 0x2748774C, 0x34B0BCB5, 0x391C0CB3, 0x4ED8AA4A,
   0x5B9CCA4F, 0x682E6FF3, 0x748F82EE, 0x78A5636F, 0x84C87814, 0x8CC70208,
   0x90BEFFFA, 0xA4506CEB, 0xBEF9A3F7, 0xC67178F2]

/-- Big-endian 32-bit words from bytes, four at a time. -/
def toWords : List Nat → List Nat
  | b0 :: b1 :: b2 :: b3 :: rest =>
      (b0 * 2 ^ 24 + b1 * 2 ^ 16 + b2 * 2 ^ 8 + b3) :: toWords rest
  | _ => []

def smallSigma0 (w : Nat) : Nat := xor3 (rotr32 7 w) (rotr32 18 w) (w >>> 3)

def smallSigma1 (w : Nat) : Nat := xor3 (rotr32 17 w) (rotr32 19 w) (w >>> 10)

/-- Extend the 16 chunk words to the 64-entry message schedule. -/
def schedule (w16 : List Nat) : List Nat :=
  (List.range 48).foldl
    (fun w _ =>
      let i := w.length
      w ++ [add32 (add32 (w.getD (i - 16) 0) (smallSigma0 (w.getD (i - 15) 0)))
              (add32 (w.getD (i - 7) 0) (smallSigma1 (w.getD (i - 2) 0)))])
    w16

def bigSigma0 (a : Nat) : Nat := xor3 (rotr32 2 a) (rotr32 13 a) (rotr32 22 a)

def bigSigma1 (e : Nat) : Nat := xor3 (rotr32 6 e) (rotr32 11 e) (rotr32 25 e)

/-- One compression round on the `[a,b,c,d,e,f,g,h]` working state. -/
def compressRound (st : List Nat) (kw : Nat × Nat) : List Nat :=
  let a := st.getD 0 0
  let b := st.getD 1 0
  let c := st.getD 2 0
  let d := st.getD 3 0
  let e := st.getD 4 0
  let f := st.getD 5 0
  let g := st.getD 6 0
  let h := st.getD 7 0
  let ch := (e &&& f) ^^^ (not32 e &&& g)
  let temp1 := add32 (add32 (add32 h (bigSigma1 e)) (add32 ch kw.1)) kw.2
  let maj := xor3 (a &&& b) (a &&& c) (b &&& c)
  let temp2 := add32 (bigSigma0 a) maj
  [add32 temp1 temp2, a, b, c, add32 d temp1, e, f, g]

/-- Process one 64-byte chunk into the running hash state. -/
def processChunk (H : List Nat) (chunk : List Nat) : List Nat :=
  let w := schedule (toWords chunk)
  let st := (K.zip w).foldl compressRound H
  (H.zip st).map fun p => add32 p.1 p.2

/-- Split the padded message into 64-byte chunks. -/
def toChunks (l : List Nat) : List (List Nat) :=
  if hEmp : l.isEmpty then []
  else
    l.take 64 :: toChunks (l.drop 64)
termination_by l.length
decreasing_by
  simp only [List.length_drop]
  have hne : l ≠ [] := by
    intro hnil
    simp [hnil] at hEmp
  have : 0 < l.length := List.length_pos.mpr hne
  omega

/-- The 8-byte big-endian encoding of the bit length. -/
def lenBytes (n : Nat) : List Nat :=
  [(n >>> 56) % 256, (n >>> 48) % 256, (n >>> 40) % 256, (n >>> 32) % 256,
   (n >>> 24) % 256, (n >>> 16) % 256, (n >>> 8) % 256, n % 256]

/-- SHA-256 digest (32 bytes) of a byte list. -/
def sha256bytes (msg : List Nat) : List Nat :=
  let L := msg.length
  let zeros := (119 - L % 64) % 64
  let padded := msg ++ [0x80] ++ List.replicate zeros 0 ++ lenBytes (L * 8)
  let Hf := (toChunks padded).foldl processChunk H0
  (Hf.map fun w =>
    [(w >>> 24) % 256, (w >>> 16) % 256, (w >>> 8) % 256, w % 256]).flatten

def hexChar (n : Nat) : Char :=
  if n < 10 then Char.ofNat ('0'.toNat + n) else Char.ofNat ('a'.toNat + n - 10)

/-- Lowercase hex rendering of a byte list (`hexdigest`). -/
def hexdigest (bytes : List Nat) : String :=
  String.mk ((bytes.map fun b => [hexChar (b / 16), hexChar (b % 16)]).flatten)

end Sha256

/-- Source `hashlib.sha256(s.encode()).hexdigest()`. -/
def sha256hex (s : String) : String :=
  Sha256.hexdigest (Sha256.sha256bytes (s.toUTF8.toList.map UInt8.toNat))

/-! ## Consolidation (`context_graph/domain/consolidation.py`)

Event dicts carry `Option` fields for the keys read through `dict.get`;
timestamps are epoch milliseconds and ISO rendering is modelled by
decimal rendering (`dtIso`), which is injective like `isoformat`. -/

structure SummaryEvent where
  event_id : Option String
  event_type : Option String
  occurred_at : Option Int
deriving DecidableEq, Repr

/-- Source `models.SummaryNode` (`created_at` is the wall clock at creation). -/
structure SummaryNode where
  summary_id : String
  scope : String
  scope_id : String
  content : String
  created_at : Int
  event_count : Nat
  time_range : List Int
deriving DecidableEq, Repr

/-- Python `sorted` on strings (code-point lexicographic). -/
def sortStrings (l : List String) : List String :=
  pySort (fun a b => decide (a ≤ b)) l

/-- Stand-in for `datetime.isoformat` on epoch-millisecond timestamps. -/
def dtIso (t : Int) : String := toString t

/-- The `summary_id` local of `create_summary_from_events`:
`f"summary-{scope_id}-{sha256(join(sorted event_ids, '|'))[:12]}"`. -/
def summaryIdOf (events : List SummaryEvent) (scope_id : String) : String :=
  "summary-" ++ scope_id ++ "-" ++
    (sha256hex (String.intercalate "|"
      (sortStrings (events.map fun e => e.event_id.getD "")))).take 12

/-- The sorted parsed `timestamps` local of `create_summary_from_events`. -/
def summaryTimestamps (events : List SummaryEvent) : List Int :=
  pySort (fun a b => decide (a ≤ b)) (events.filterMap fun e => e.occurred_at)

/-- The `time_range` local: `[first, last]` of the sorted timestamps. -/
def summaryTimeRange (events : List SummaryEvent) : List Int :=
  match (summaryTimestamps events).head?, (summaryTimestamps events).getLast? with
  | some a, some b => [a, b]
  | _, _ => []

/-- The `content` local: event count, sorted distinct event types, and
the rendered time range. -/
def summaryContent (events : List SummaryEvent) : String :=
  let event_types := sortStrings ((events.map fun e => e.event_type.getD "unknown").eraseDups)
  let start_str := match (summaryTimestamps events).head? with | some t => dtIso t | none => "?"
  let end_str := match (summaryTimestamps events).getLast? with | some t => dtIso t | none => "?"
  toString events.length ++ " events (" ++ String.intercalate ", " event_types ++
    ") from " ++ start_str ++ " to " ++ end_str

/-- Source `create_summary_from_events`; `none` models the `ValueError` on an
empty event list.  `now` is the `datetime.now(UTC)` read for
`created_at`. -/
def create_summary_from_events (events : List SummaryEvent)
    (scope scope_id : String) (now : Int) : Option SummaryNode :=
  if events.isEmpty then none
  else
    some { summary_id := summaryIdOf events scope_id, scope := scope,
           scope_id := scope_id, content := summaryContent events,
           created_at := now, event_count := events.length,
           time_range := summaryTimeRange events }

/-! ## Entity resolution (`context_graph/domain/entity_resolution.py`)

`difflib.SequenceMatcher` is embedded in its junk-free form (no `isjunk`
argument is passed, and the autojunk heuristic only fires for strings of
length ≥ 200, far beyond any entity name compared here). -/

/-- ASCII lowercasing, character by character (`str.lower`). -/
def pyLower (s : String) : String :=
  String.mk (s.toList.map Char.toLower)

/-- Python `str.split()` with no argument: split on whitespace runs,
never producing empty words. -/
def pySplitWs (cs : List Char) : List String :=
  let fin := cs.foldl
    (fun (acc : List String × List Char) c =>
      if c.isWhitespace then
        (if acc.2.isEmpty then acc.1 else acc.1 ++ [String.mk acc.2], [])
      else (acc.1, acc.2 ++ [c]))
    (([], []))
  if fin.2.isEmpty then fin.1 else fin.1 ++ [String.mk fin.2]

/-- Source `normalize_entity_name`: lowercase, strip, collapse whitespace. -/
def normalize_entity_name (name : String) : String :=
  String.intercalate " " (pySplitWs (pyLower name).toList)

/-- Source `DOMAIN_ALIAS_DICT` (canonical name → aliases). -/
def DOMAIN_ALIAS_DICT : List (String × List String) :=
  [("quickbooks", ["qb", "qbo", "quickbooks online"]),
   ("paypal", ["pp", "paypal.com"]),
   ("stripe", ["stripe.com", "stripe api"]),
   ("github", ["gh", "github.com"]),
   ("visual studio code", ["vscode", "vs code"]),
   ("javascript", ["js"]),
   ("typescript", ["ts"]),
   ("python", ["py"]),
   ("postgresql", ["postgres", "psql", "pg"]),
   ("kubernetes", ["k8s"]),
   ("docker", ["docker.io"]),
   ("amazon web services", ["aws"]),
   ("google cloud platform", ["gcp"]),
   ("microsoft azure", ["azure"]),
   ("usps", ["us postal service", "united states postal service"]),
   ("fedex", ["federal express"]),
   ("csv", ["comma separated values", "comma-separated values"])]

/-- The reverse lookup `_ALIAS_TO_CANONICAL` (alias, lowercased →
canonical); aliases are pairwise distinct so insertion order is moot. -/
def aliasToCanonical (s : String) : Option String :=
  ((DOMAIN_ALIAS_DICT.flatMap fun p => p.2.map fun a => (pyLower a, p.1)).find?
    fun q => q.1 = s).map Prod.snd

/-- Source `resolve_alias`. -/
def resolve_alias (name : String) : String :=
  (aliasToCanonical (normalize_entity_name name)).getD (normalize_entity_name name)

inductive EntityResolutionAction where
  | MERGE
  | SAME_AS
  | RELATED_TO
  | CREATE
deriving DecidableEq, Repr

structure EntityResolutionResult where
  action : EntityResolutionAction
  canonical_name : String
  entity_type : String
  confidence : ℚ
  justification : String
deriving DecidableEq, Repr

/-- An existing-entity dict; `none` models a missing key (the source
reads both keys through `dict.get` with varying defaults). -/
structure EntityRec where
  name : Option String
  entity_type : Option String
deriving DecidableEq, Repr

namespace Difflib

/-- Source `b2j`-style lookup: the ascending indices at which `c` occurs in
`b`. -/
def occIdx (b : List Char) (c : Char) : List Nat :=
  (List.range b.length).filter fun j => b.getD j ' ' == c

/-- The inner loop of `find_longest_match` for one row `i`: walk the
ascending occurrence indices `js`, building the new run-length map and
updating the best block.  `j < blo` is `continue`; `j ≥ bhi` is `break`
(skipping it has the same effect on an ascending list).  The source reads
`j2lenget(j-1, 0)` over integer keys, and `-1` is never a key of the map,
so at `j = 0` the lookup yields the default `0`; hence the explicit guard
here, where subtraction is on `Nat`. -/
def flmRow (j2len : List (Nat × Nat)) (js : List Nat) (blo bhi i : Nat)
    (best : Nat × Nat × Nat) : List (Nat × Nat) × (Nat × Nat × Nat) :=
  js.foldl
    (fun acc j =>
      if j < blo || bhi ≤ j then acc
      else
        let k := (if j = 0 then 0
          else ((j2len.find? fun p => p.1 = j - 1).map Prod.snd).getD 0) + 1
        let acc1 : List (Nat × Nat) × (Nat × Nat × Nat) := ((j, k) :: acc.1, acc.2)
        if k > acc1.2.2.2 then (acc1.1, (i + 1 - k, j + 1 - k, k)) else acc1)
    (([], best))

/-- Source `find_longest_match(alo, ahi, blo, bhi)` (junk-free): the returned
triple is `(besti, bestj, size)`.  The run-length map is rebuilt per row
from the previous row only, exactly as in the source. -/
def findLongestMatch (a b : List Char) (alo ahi blo bhi : Nat) : Nat × Nat × Nat :=
  ((List.range' alo (ahi - alo)).foldl
    (fun st i =>
      let js := occIdx b (a.getD i ' ')
      let prevRow := st.1
      flmRow prevRow js blo bhi i st.2)
    (([], (alo, blo, 0)))).2

/-- Hold-over of the run-length map between rows is what `j2len =
newj2len` does; `flmRow` receives the previous row's map.  The summed
size of all matching blocks (`get_matching_blocks` without the
bookkeeping that does not change the sum), fuelled by the range sizes;
each recursion splits around a nonempty block so the fuel suffices. -/
def matchSum (a b : List Char) : Nat → Nat → Nat → Nat → Nat → Nat
  | 0, _, _, _, _ => 0
  | fuel + 1, alo, ahi, blo, bhi =>
      let m := findLongestMatch a b alo ahi blo bhi
      if m.2.2 = 0 then 0
      else
        m.2.2 + matchSum a b fuel alo m.1 blo m.2.1 +
          matchSum a b fuel (m.1 + m.2.2) ahi (m.2.1 + m.2.2) bhi

/-- Source `SequenceMatcher(None, a, b).ratio() = 2*M / (len(a)+len(b))`. -/
def ratio (a b : List Char) : ℚ :=
  let la := a.length
  let lb := b.length
  if la + lb = 0 then 1
  else 2 * (matchSum a b (la + lb + 1) 0 la 0 lb : ℚ) / ((la + lb : Nat) : ℚ)

end Difflib

/-- Source `compute_name_similarity`. -/
def compute_name_similarity (name_a name_b : String) : ℚ :=
  let norm_a := normalize_entity_name name_a
  let norm_b := normalize_entity_name name_b
  if norm_a = "" || norm_b = "" then 0
  else Difflib.ratio norm_a.toList norm_b.toList

/-- Python `round(x, 4)` (round half to even at 4 decimal places). -/
def roundTo4 (x : ℚ) : ℚ :=
  let y := x * 10000
  let f : Int := ⌊y⌋
  let r := y - (f : ℚ)
  let n : Int :=
    if r < 1 / 2 then f
    else if r > 1 / 2 then f + 1
    else if f % 2 = 0 then f else f + 1
  (n : ℚ) / 10000

/-- One iteration of the `best_score` / `best_entity` loop of
`resolve_close_match`: the four alias/raw comparison variants are taken
at their maximum, and the running best is replaced only on a strict
improvement. -/
def bestStep (canonical normalized : String) (best : ℚ × Option EntityRec)
    (entity : EntityRec) : ℚ × Option EntityRec :=
  let existing_raw := normalize_entity_name (entity.name.getD "")
  let existing_canonical := resolve_alias (entity.name.getD "")
  let score :=
    max (compute_name_similarity canonical existing_canonical)
      (max (compute_name_similarity normalized existing_raw)
        (max (compute_name_similarity canonical existing_raw)
          (compute_name_similarity normalized existing_canonical)))
  if score > best.1 then (score, some entity) else best

/-- The `best_score` / `best_entity` fold of `resolve_close_match`. -/
def bestPair (name : String) (existing_entities : List EntityRec) :
    ℚ × Option EntityRec :=
  existing_entities.foldl
    (bestStep (resolve_alias name) (normalize_entity_name name))
    ((0, none))

/-- Source `resolve_close_match` (tier 2 of entity resolution). -/
def resolve_close_match (name entity_type : String)
    (existing_entities : List EntityRec) (threshold : ℚ := 9 / 10) :
    Option EntityResolutionResult :=
  let canonical := resolve_alias name
  let best := bestPair name existing_entities
  match best.2 with
  | none => none
  | some best_entity =>
      if best.1 ≥ threshold then
        let existing_canonical := resolve_alias (best_entity.name.getD "")
        let action :=
          if best_entity.entity_type.getD "" = entity_type then
            EntityResolutionAction.SAME_AS
          else EntityResolutionAction.RELATED_TO
        some { action := action,
               canonical_name := existing_canonical,
               entity_type := best_entity.entity_type.getD entity_type,
               confidence := roundTo4 best.1,
               justification := "Fuzzy match '" ++ canonical ++ "' ~ '" ++
                 existing_canonical ++ "'" }
      else none

/-! ## Event ledger (`adapters/redis/store.py` + the server-side script) -/

/-- The ledger's persisted state: event documents keyed by `event_id`,
the global ordered log of `(global_position, event_id)`, the per-session
ordered view, and the dedup index. -/
structure Ledger where
  docs : List (String × Event)
  glog : List (String × String)
  sview : List (String × String)
  dedup : List (String × String × Nat)
  seq : Nat
deriving DecidableEq, Repr

/-- Modelled from the spec: the server-side Lua ingestion script
(`ingest.lua`) invoked by `RedisEventStore.append` is not among the
sources — only its caller is — so its behaviour follows spec §4.1:
atomically, (a) if `event_id` has already been ingested, return the
stored `global_position`; (b) otherwise assign a new monotonic
`<epoch_ms>-<seq>` position, persist the event document keyed by
`event_id`, append `(global_position, event_id)` to the global log,
append a per-session view entry, and record the `event_id` in the dedup
index with the ingestion-time score; all four writes happen together. -/
def ledgerAppend (st : Ledger) (now_ms : Nat) (e : Event) : Ledger × String :=
  match st.dedup.find? fun d => d.1 = e.event_id with
  | some d => (st, d.2.1)
  | none =>
      let pos := toString now_ms ++ "-" ++ toString st.seq
      ({ docs := st.docs ++ [(e.event_id, e)],
         glog := st.glog ++ [(pos, e.event_id)],
         sview := st.sview ++ [(e.session_id, e.event_id)],
         dedup := st.dedup ++ [(e.event_id, pos, now_ms)],
         seq := st.seq + 1 }, pos)

/-! ## Graph access counters (`adapters/neo4j/store.py` + `queries.py`)

The graph store is a partial map from `event_id` to the mutable node
properties the access bump touches.  The retrieval pipelines are
embedded generically over the row type `π` delivered by the Cypher
queries; `eidOf` reads a row's `event_id` property and `decayOf` stands
for the `decay_score` that `score_node` computes for the row. -/

/-- The mutable properties touched by `BATCH_UPDATE_ACCESS_COUNT`;
`access_count = none` models an absent property (`coalesce(..., 0)`). -/
structure GNode where
  access_count : Option Int
  last_accessed_at : Option Int
deriving DecidableEq, Repr

def GraphDB : Type := String → Option GNode

/-- Source `_bump_access_counts` / `BATCH_UPDATE_ACCESS_COUNT`: per unwound id,
`SET e.access_count = coalesce(e.access_count, 0) + 1,
e.last_accessed_at = $now`; ids with no matching node are skipped. -/
def bump_access_counts (event_ids : List String) (now : Int) (g : GraphDB) : GraphDB :=
  event_ids.foldl
    (fun g' eid => fun x =>
      if x = eid then
        (g' x).map fun n =>
          { access_count := some (n.access_count.getD 0 + 1),
            last_accessed_at := some now }
      else g' x)
    g

/-- Python dict assignment `d[k] = v`: overwrite in place or append. -/
def dictInsert {α : Type} (k : String) (v : α) (d : List (String × α)) :
    List (String × α) :=
  if d.any fun p => p.1 = k then
    d.map fun p => if p.1 = k then (k, v) else p
  else d ++ [(k, v)]

/-- Source `get_context`: score the session rows, sort by decay score
descending (stably, as `list.sort(reverse=True)` does), keep the top
`max_nodes`, build the response node map, and bump the kept ids. -/
def get_context_model {π : Type} (records : List π) (eidOf : π → String)
    (decayOf : π → ℚ) (max_nodes : Nat) (now : Int) (g : GraphDB) :
    List (String × π) × GraphDB :=
  let sorted := pySort (fun x y => decide (decayOf y ≤ decayOf x)) records
  let kept := sorted.take max_nodes
  let nodes := kept.foldl (fun d r => dictInsert (eidOf r) r d) []
  let event_ids := kept.map eidOf
  (nodes, bump_access_counts event_ids now g)

/-- Source `get_lineage`: each row is `(chain_nodes, chain_rels)`; nodes are
deduplicated by id (first occurrence wins), rels by the (start, end)
pair, and exactly `list(nodes.keys())` is bumped. -/
def get_lineage_model {π : Type} (records : List (List π × List (String × String)))
    (eidOf : π → String) (now : Int) (g : GraphDB) :
    List (String × π) × List (String × String) × GraphDB :=
  let nodes := records.foldl
    (fun nodes rec =>
      rec.1.foldl
        (fun nodes nn =>
          let eid := eidOf nn
          if eid ≠ "" && !(nodes.any fun p => p.1 = eid) then nodes ++ [(eid, nn)]
          else nodes)
        nodes)
    []
  let edges := records.foldl
    (fun acc rec =>
      rec.2.foldl (fun acc r => if acc.any (· = r) then acc else acc ++ [r]) acc)
    []
  (nodes, edges, bump_access_counts (nodes.map Prod.fst) now g)

/-- A row of `GET_EVENT_NEIGHBORS`. -/
structure SgNeighbor (π : Type) where
  rel_type : Option String
  neighbor_eid : Option String
  neighbor_entity_id : Option String
  neighbor_props : π

/-- Source `get_subgraph`, from the seed fetch onward: the response node map
carries each node's stored `decay_score` (seeds keep their score,
neighbors get the weight-proportional boost), the map is truncated to
the top `max_nodes` by stored score, and only the kept ids that start
with `"evt"` are bumped.  `neighbor_eid or neighbor_entity_id or ""`
falls through on `None` and on empty strings alike. -/
def get_subgraph_model {π : Type} (seed_records : List π) (user_seeds : List String)
    (fetchEvent : String → Option π) (neighborsOf : String → List (SgNeighbor π))
    (eidOf : π → String) (decayOf : π → ℚ) (edge_weights : List (String × ℚ))
    (max_nodes : Nat) (now : Int) (g : GraphDB) :
    List (String × ℚ) × List (String × String × String) × GraphDB :=
  let init := seed_records.foldl
    (fun (st : List String × List (String × ℚ)) r =>
      let eid := eidOf r
      if eid ≠ "" then (st.1 ++ [eid], dictInsert eid (decayOf r) st.2) else st)
    (([], []))
  let seed_ids := if user_seeds.isEmpty then init.1 else user_seeds
  let nodes0 :=
    if user_seeds.isEmpty then init.2
    else
      user_seeds.foldl
        (fun nodes sid =>
          if nodes.any fun p => p.1 = sid then nodes
          else
            match fetchEvent sid with
            | some props => dictInsert sid (decayOf props) nodes
            | none => nodes)
        init.2
  let expanded := seed_ids.foldl
    (fun (st : List (String × ℚ) × List (String × String × String)) seed =>
      (neighborsOf seed).foldl
        (fun st nrec =>
          match nrec.rel_type with
          | none => st
          | some rel =>
              let nid :=
                if nrec.neighbor_eid.getD "" ≠ "" then nrec.neighbor_eid.getD ""
                else nrec.neighbor_entity_id.getD ""
              if nid = "" then st
              else
                let weight := (((edge_weights.find? fun p => p.1 = rel).map
                  Prod.snd).getD 1)
                let nodes :=
                  if nrec.neighbor_eid.getD "" ≠ "" &&
                      !(st.1.any fun p => p.1 = nrec.neighbor_eid.getD "") then
                    let boosted :=
                      min 1 (decayOf nrec.neighbor_props * (1 + weight * (1 / 10)))
                    dictInsert (nrec.neighbor_eid.getD "") boosted st.1
                  else st.1
                let edges :=
                  if st.2.any (· = (seed, nid, rel)) then st.2
                  else st.2 ++ [(seed, nid, rel)]
                (nodes, edges))
        st)
    ((nodes0, []))
  let nodes1 := expanded.1
  let sorted_ids := pySort
    (fun x y =>
      decide ((((nodes1.find? fun p => p.1 = y).map Prod.snd).getD 0) ≤
              (((nodes1.find? fun p => p.1 = x).map Prod.snd).getD 0)))
    (nodes1.map Prod.fst)
  let nodes2 :=
    if sorted_ids.length > max_nodes then
      nodes1.filter fun p => (sorted_ids.take max_nodes).any (· = p.1)
    else nodes1
  let event_ids := (nodes2.map Prod.fst).filter fun nid => nid.toList.take 3 = "evt".toList
  (nodes2, expanded.2, bump_access_counts event_ids now g)

/-! ## Concrete inputs used by the witnesses and counterexamples -/

/-- A well-formed event used by concrete instantiations. -/
def c1Event : Event :=
  { event_id := "e1", event_type := "agent.invoke",
    occurred_at := { wall := 0, tzOffsetMin := some 0 },
    session_id := "s1", agent_id := "a1", trace_id := "t1",
    payload_ref := "ref", global_position := some "1-0",
    tool_name := none, parent_event_id := none, ended_at := none,
    importance_hint := none }

/-- The empty ledger. -/
def c1Empty : Ledger := ⟨[], [], [], [], 0⟩

/-- A current event at instant 0 in session `"s"`. -/
def c3curr : Event :=
  { c1Event with event_id := "c", session_id := "s",
                 occurred_at := { wall := 0, tzOffsetMin := some 0 } }

/-- A previous event at instant 1000 ms in the same session `"s"`. -/
def c3prev : Event :=
  { c1Event with event_id := "p", session_id := "s",
                 occurred_at := { wall := 1000, tzOffsetMin := some 0 },
                 global_position := some "0-0" }

/-- A previous event from a different session. -/
def c3other : Event :=
  { c1Event with event_id := "p0", session_id := "other" }

/-- A one-node graph store keyed by the `"evt"`-prefixed id `"evt1"`. -/
def c2GoodG : GraphDB :=
  fun x => if x = "evt1" then some ⟨some 0, none⟩ else none

/-- A one-node graph store keyed by the UUID-style id `"a1b2"`, which
does not start with `"evt"`. -/
def c2BadG : GraphDB :=
  fun x => if x = "a1b2" then some ⟨some 0, none⟩ else none

/-! ## Theorems -/

theorem filter_len_zero_imp_find_none {α : Type} (p : α → Bool) (l : List α)
    (h : (l.filter p).length = 0) : l.find? p = none := by
  rw [List.find?_eq_none]
  intro x hx hpx
  have hmem : x ∈ l.filter p := List.mem_filter.mpr ⟨hx, hpx⟩
  rw [List.length_eq_zero] at h
  rw [h] at hmem
  cases hmem

theorem ledgerAppend_hit (st : Ledger) (now : Nat) (e : Event)
    (d : String × String × Nat)
    (h : (st.dedup.find? fun d => d.1 = e.event_id) = some d) :
    ledgerAppend st now e = (st, d.2.1) := by
  simp [ledgerAppend, h]

theorem ledgerAppend_fresh (st : Ledger) (now : Nat) (e : Event)
    (h : (st.dedup.find? fun d => d.1 = e.event_id) = none) :
    ledgerAppend st now e =
      ({ docs := st.docs ++ [(e.event_id, e)],
         glog := st.glog ++ [(toString now ++ "-" ++ toString st.seq, e.event_id)],
         sview := st.sview ++ [(e.session_id, e.event_id)],
         dedup := st.dedup ++ [(e.event_id, toString now ++ "-" ++ toString st.seq, now)],
         seq := st.seq + 1 }, toString now ++ "-" ++ toString st.seq) := by
  simp [ledgerAppend, h]

/-- C1 (spec-modelled): appending a valid event whose id is fresh
and then appending it again returns the same `global_position` both
times, leaves the ledger state untouched the second time, and each of
the four stores (documents, global log, session view, dedup index) holds
exactly one entry for the event. -/
theorem ledger_append_idempotent (st : Ledger) (e : Event) (now1 now2 : Nat)
    (hd : (st.docs.filter fun p => p.1 = e.event_id).length = 0)
    (hg : (st.glog.filter fun p => p.2 = e.event_id).length = 0)
    (hs : (st.sview.filter fun p => p.2 = e.event_id).length = 0)
    (hdd : (st.dedup.filter fun p => p.1 = e.event_id).length = 0) :
    (ledgerAppend (ledgerAppend st now1 e).1 now2 e).2 = (ledgerAppend st now1 e).2 ∧
    (ledgerAppend (ledgerAppend st now1 e).1 now2 e).1 = (ledgerAppend st now1 e).1 ∧
    ((ledgerAppend st now1 e).1.docs.filter fun p => p.1 = e.event_id).length = 1 ∧
    ((ledgerAppend st now1 e).1.glog.filter fun p => p.2 = e.event_id).length = 1 ∧
    ((ledgerAppend st now1 e).1.sview.filter fun p => p.2 = e.event_id).length = 1 ∧
    ((ledgerAppend st now1 e).1.dedup.filter fun p => p.1 = e.event_id).length = 1 := by
  have hfind : (st.dedup.find? fun d => d.1 = e.event_id) = none :=
    filter_len_zero_imp_find_none _ _ hdd
  have h1 := ledgerAppend_fresh st now1 e hfind
  have hfind2 : ((ledgerAppend st now1 e).1.dedup.find? fun d => d.1 = e.event_id) =
      some (e.event_id, toString now1 ++ "-" ++ toString st.seq, now1) := by
    rw [h1]
    simp [List.find?_append, hfind]
  have h2 := ledgerAppend_hit (ledgerAppend st now1 e).1 now2 e _ hfind2
  refine ⟨?_, ?_, ?_, ?_, ?_, ?_⟩
  · rw [h2, h1]
  · rw [h2]
  · rw [h1]; simp [List.filter_append, List.length_eq_zero.mp hd]
  · rw [h1]; simp [List.filter_append, List.length_eq_zero.mp hg]
  · rw [h1]; simp [List.filter_append, List.length_eq_zero.mp hs]
  · rw [h1]; simp [List.filter_append, List.length_eq_zero.mp hdd]

/-- Witness for `ledger_append_idempotent` at the empty ledger. -/
theorem ledger_append_idempotent_witness :
    ((c1Empty.docs.filter fun p => p.1 = c1Event.event_id).length = 0 ∧
     (c1Empty.glog.filter fun p => p.2 = c1Event.event_id).length = 0 ∧
     (c1Empty.sview.filter fun p => p.2 = c1Event.event_id).length = 0 ∧
     (c1Empty.dedup.filter fun p => p.1 = c1Event.event_id).length = 0) ∧
    ((ledgerAppend (ledgerAppend c1Empty 5 c1Event).1 9 c1Event).2 =
        (ledgerAppend c1Empty 5 c1Event).2 ∧
      (ledgerAppend (ledgerAppend c1Empty 5 c1Event).1 9 c1Event).1 =
        (ledgerAppend c1Empty 5 c1Event).1 ∧
      ((ledgerAppend c1Empty 5 c1Event).1.docs.filter fun p =>
        p.1 = c1Event.event_id).length = 1 ∧
      ((ledgerAppend c1Empty 5 c1Event).1.glog.filter fun p =>
        p.2 = c1Event.event_id).length = 1 ∧
      ((ledgerAppend c1Empty 5 c1Event).1.sview.filter fun p =>
        p.2 = c1Event.event_id).length = 1 ∧
      ((ledgerAppend c1Empty 5 c1Event).1.dedup.filter fun p =>
        p.1 = c1Event.event_id).length = 1) :=
  ⟨⟨by decide, by decide, by decide, by decide⟩,
    ledger_append_idempotent c1Empty c1Event 5 9
      (by decide) (by decide) (by decide) (by decide)⟩

/-- C3, amended: `project_event` emits a FOLLOWS edge from `curr`
to `prev` iff `prev` is present with the same `session_id`; the edge
carries the session id and `delta_ms` equal to the signed difference of
the `occurred_at` instants in milliseconds (naive timestamps read as
UTC).  The source does not clamp `delta_ms` to be nonnegative. -/
theorem project_event_follows (e : Event) (prev : Option Event) (r : ProjectionResult)
    (h : project_event e prev = some r) :
    followsOf r.edges =
      match prev with
      | some p =>
          if p.session_id = e.session_id then
            [{ source := e.event_id, target := p.event_id,
               edge_type := EdgeType.FOLLOWS,
               session_id := some e.session_id,
               delta_ms := some (e.occurred_at.instant - p.occurred_at.instant),
               mechanism := none }]
          else []
      | none => [] := by
  cases hn : event_to_node e with
  | none => simp [project_event, hn] at h
  | some node =>
      cases prev with
      | none =>
          simp only [project_event, hn, Option.map_some', Option.some.injEq] at h
          subst h
          simp only [followsOf]
          cases hp : e.parent_event_id <;>
            simp [compute_caused_by_edge, hp]
      | some p =>
          simp only [project_event, hn, Option.map_some', Option.some.injEq] at h
          subst h
          simp only [followsOf]
          cases hp : e.parent_event_id <;> by_cases hsess : p.session_id = e.session_id <;>
            simp [compute_caused_by_edge, hp, hsess, compute_follows_edge, compute_delta_ms]

/-- Witness for `project_event_follows`: a same-session previous event
yields exactly the FOLLOWS edge described by the theorem. -/
theorem project_event_follows_witness :
    ∃ r, project_event c3curr (some c3prev) = some r ∧
      followsOf r.edges =
        (if c3prev.session_id = c3curr.session_id then
          [{ source := c3curr.event_id, target := c3prev.event_id,
             edge_type := EdgeType.FOLLOWS,
             session_id := some c3curr.session_id,
             delta_ms := some (c3curr.occurred_at.instant - c3prev.occurred_at.instant),
             mechanism := none }]
         else []) :=
  ⟨{ node := { event_id := "c", event_type := "agent.invoke",
               occurred_at := { wall := 0, tzOffsetMin := some 0 },
               session_id := "s", agent_id := "a1", trace_id := "t1",
               tool_name := none, global_position := "1-0",
               importance_score := none },
     edges := [{ source := "c", target := "p",
                 edge_type := EdgeType.FOLLOWS, session_id := some "s",
                 delta_ms := some (-1000), mechanism := none }] },
    by decide, project_event_follows c3curr (some c3prev) _ (by decide)⟩

/-- C3 counterexample: with `prev` occurring 1000 ms after `curr` in
the same session, the emitted FOLLOWS edge carries `delta_ms = -1000`,
which is negative — the claim's clamping to `≥ 0` does not happen. -/
theorem project_event_no_clamp_counterexample :
    (project_event c3curr (some c3prev)).map
      (fun r => (followsOf r.edges).map Edge.delta_ms) = some [some (-1000)] ∧
    (-1000 : Int) < 0 := by
  exact ⟨by decide, by decide⟩

theorem pruneStep_fold (now : Int) (events : List PruneEvent) (acc : PruningActions) :
    events.foldl (pruneStep 24 168 720 (7 / 10) 5 3 now) acc =
      { delete_edges := acc.delete_edges ++ (events.filter (warmMarked now)).map (·.event_id),
        delete_nodes := acc.delete_nodes ++ (events.filter (coldMarked now)).map (·.event_id),
        archive_event_ids :=
          acc.archive_event_ids ++ (events.filter (archiveMarked now)).map (·.event_id) } := by
  induction events generalizing acc with
  | nil =>
      obtain ⟨de, dn, ar⟩ := acc
      simp
  | cons e es ih =>
      rw [List.foldl_cons, ih]
      cases ho : e.occurred_at with
      | none => simp [pruneStep, ho, warmMarked, coldMarked, archiveMarked]
      | some occ =>
          by_cases hid : e.event_id = ""
          · simp [pruneStep, ho, hid, warmMarked, coldMarked, archiveMarked]
          · cases ht : classify_retention_tier occ now 24 168 720 with
            | HOT => simp [pruneStep, ho, hid, ht, warmMarked, coldMarked, archiveMarked]
            | WARM =>
                by_cases hw : should_prune_warm e (7 / 10) = true <;>
                  simp [pruneStep, ho, hid, ht, hw, warmMarked, coldMarked, archiveMarked]
            | COLD =>
                by_cases hc : should_prune_cold e 5 3 = true
                · simp only [should_prune_cold, Bool.and_eq_true, decide_eq_true_eq] at hc
                  simp [pruneStep, ho, hid, ht, warmMarked, coldMarked, archiveMarked,
                    should_prune_cold, hc.1, hc.2]
                · simp only [should_prune_cold, Bool.and_eq_true, decide_eq_true_eq,
                    not_and_or] at hc
                  rcases hc with hc | hc <;>
                    simp [pruneStep, ho, hid, ht, warmMarked, coldMarked, archiveMarked,
                      should_prune_cold, hc]
            | ARCHIVE => simp [pruneStep, ho, hid, ht, warmMarked, coldMarked, archiveMarked]

/-- C5: with the default thresholds, the pruning pass deletes a
node exactly for the COLD-tier events failing BOTH `importance_score <
5` and `access_count < 3` (so meeting either threshold saves the node),
archives exactly the ARCHIVE-tier events with no further condition,
deletes edges exactly for the low-similarity WARM-tier events, and a
HOT-tier event is never marked in any list. -/
theorem get_pruning_actions_spec (events : List PruneEvent) (now_ms : Int) :
    get_pruning_actions events 24 168 720 (7 / 10) 5 3 now_ms =
      { delete_edges := (events.filter (warmMarked now_ms)).map (·.event_id),
        delete_nodes := (events.filter (coldMarked now_ms)).map (·.event_id),
        archive_event_ids := (events.filter (archiveMarked now_ms)).map (·.event_id) } := by
  rw [get_pruning_actions, pruneStep_fold]
  simp

/-- C6: for a fixed input event list, scope and scope_id, two runs
of deterministic summary creation (at arbitrary wall-clock readings)
produce Summary nodes with the same `content`, `event_count` and
`time_range`, and with `summary_id` equal to
`"summary-<scope_id>-" ++` the first 12 hex characters of the SHA-256 of
the sorted covered event ids joined by `"|"`. -/
theorem create_summary_deterministic (events : List SummaryEvent)
    (scope scope_id : String) (now1 now2 : Int) (h : events ≠ []) :
    ∃ s1 s2,
      create_summary_from_events events scope scope_id now1 = some s1 ∧
      create_summary_from_events events scope scope_id now2 = some s2 ∧
      s1.summary_id = "summary-" ++ scope_id ++ "-" ++
        (sha256hex (String.intercalate "|"
          (sortStrings (events.map fun e => e.event_id.getD "")))).take 12 ∧
      s1.content = s2.content ∧
      s1.event_count = s2.event_count ∧
      s1.time_range = s2.time_range := by
  have hne : events.isEmpty = false := by
    cases events with
    | nil => exact absurd rfl h
    | cons a l => rfl
  have hform : ∀ now : Int, create_summary_from_events events scope scope_id now =
      some { summary_id := summaryIdOf events scope_id, scope := scope,
             scope_id := scope_id, content := summaryContent events,
             created_at := now, event_count := events.length,
             time_range := summaryTimeRange events } := by
    intro now
    simp [create_summary_from_events, hne]
  exact ⟨_, _, hform now1, hform now2, rfl, rfl, rfl, rfl⟩

/-- Witness for `create_summary_deterministic` on a two-event episode. -/
theorem create_summary_deterministic_witness :
    ([⟨some "e2", some "tool.call", some 1000⟩,
      ⟨some "e1", some "agent.invoke", some 0⟩] : List SummaryEvent) ≠ [] ∧
    (∃ s1 s2,
      create_summary_from_events
        [⟨some "e2", some "tool.call", some 1000⟩,
         ⟨some "e1", some "agent.invoke", some 0⟩] "episode" "sess" 7 = some s1 ∧
      create_summary_from_events
        [⟨some "e2", some "tool.call", some 1000⟩,
         ⟨some "e1", some "agent.invoke", some 0⟩] "episode" "sess" 99 = some s2 ∧
      s1.summary_id = "summary-" ++ "sess" ++ "-" ++
        (sha256hex (String.intercalate "|"
          (sortStrings (([⟨some "e2", some "tool.call", some 1000⟩,
            ⟨some "e1", some "agent.invoke", some 0⟩] : List SummaryEvent).map fun e =>
              e.event_id.getD "")))).take 12 ∧
      s1.content = s2.content ∧
      s1.event_count = s2.event_count ∧
      s1.time_range = s2.time_range) :=
  ⟨by decide,
    create_summary_deterministic
      [⟨some "e2", some "tool.call", some 1000⟩,
       ⟨some "e1", some "agent.invoke", some 0⟩] "episode" "sess" 7 99 (by decide)⟩

theorem vErrType_eq_nil_iff (e : Event) :
    vErrType e = [] ↔ eventTypeMatch e.event_type = true := by
  rw [vErrType]; split_ifs with h <;> simp [h]

theorem vErrDrift_eq_nil_iff (e : Event) (now_ms : Int) :
    vErrDrift e now_ms = [] ↔
      ¬(e.occurred_at.isAware = true ∧
        MAX_FUTURE_DRIFT_SECONDS * 1000 < e.occurred_at.instant - now_ms) := by
  cases hocc : e.occurred_at.tzOffsetMin with
  | none => simp [vErrDrift, PyDateTime.isAware, hocc]
  | some tz =>
      simp only [vErrDrift, hocc, PyDateTime.isAware, Option.isSome_some, true_and]
      split_ifs with h <;> simp [h]

theorem vErrParent_eq_nil_iff (e : Event) :
    vErrParent e = [] ↔ ¬(e.parent_event_id = some e.event_id) := by
  cases hpar : e.parent_event_id with
  | none => simp [vErrParent, hpar]
  | some p =>
      simp only [vErrParent, hpar, Option.some.injEq]
      split_ifs with h <;> simp_all

theorem vErrEnded_eq_nil_iff (e : Event) :
    vErrEnded e = [] ↔ ¬(endedLtOcc e = true) := by
  cases hed : e.ended_at with
  | none => simp [vErrEnded, endedLtOcc, hed]
  | some ed =>
      simp only [vErrEnded, endedLtOcc, hed]
      split_ifs with h <;> simp [h]

theorem vErrPayload_eq_nil_iff (e : Event) :
    vErrPayload e = [] ↔ ¬(MAX_PAYLOAD_REF_LENGTH < e.payload_ref.length) := by
  rw [vErrPayload]; split_ifs with h <;> simp_all

theorem vErrType_fields (e : Event) :
    (vErrType e).map Prod.fst = if eventTypeMatch e.event_type then [] else ["event_type"] := by
  rw [vErrType]; split_ifs <;> rfl

theorem vErrDrift_fields (e : Event) (now_ms : Int) :
    (vErrDrift e now_ms).map Prod.fst =
      if e.occurred_at.isAware &&
          decide (MAX_FUTURE_DRIFT_SECONDS * 1000 < e.occurred_at.instant - now_ms) then
        ["occurred_at"] else [] := by
  cases hocc : e.occurred_at.tzOffsetMin with
  | none => simp [vErrDrift, PyDateTime.isAware, hocc]
  | some tz =>
      simp only [vErrDrift, hocc, PyDateTime.isAware, Option.isSome_some, Bool.true_and]
      split_ifs with h h' <;> simp_all <;> omega

theorem vErrParent_fields (e : Event) :
    (vErrParent e).map Prod.fst =
      if e.parent_event_id = some e.event_id then ["parent_event_id"] else [] := by
  cases hpar : e.parent_event_id with
  | none => simp [vErrParent, hpar]
  | some p =>
      simp only [vErrParent, hpar, Option.some.injEq]
      split_ifs with h h' <;> simp_all

theorem vErrEnded_fields (e : Event) :
    (vErrEnded e).map Prod.fst = if endedLtOcc e then ["ended_at"] else [] := by
  cases hed : e.ended_at with
  | none => simp [vErrEnded, endedLtOcc, hed]
  | some ed =>
      simp only [vErrEnded, endedLtOcc, hed]
      split_ifs with h h' <;> simp_all <;> omega

theorem vErrPayload_fields (e : Event) :
    (vErrPayload e).map Prod.fst =
      if MAX_PAYLOAD_REF_LENGTH < e.payload_ref.length then ["payload_ref"] else [] := by
  rw [vErrPayload]; split_ifs with h h' <;> simp_all

theorem is_valid_false_iff (errors : List (String × String)) :
    is_valid errors = false ↔ errors ≠ [] := by
  simp [is_valid, List.length_eq_zero]

/-- C7: `validate_event` reports `is_valid = false` exactly when at
least one of the five checkable rules is violated (a missing required
field cannot occur on a constructed `Event` — the Pydantic model rejects
it before `validate_event` runs), and it collects exactly one
`(field, message)` error per violated rule, in source order.  The
`tzConsistent` hypothesis marks the domain on which the Python
comparison `ended_at < occurred_at` is defined. -/
theorem validate_event_spec (e : Event) (now_ms : Int)
    (htz : tzConsistent e = true) :
    (is_valid (validate_event e now_ms) = false ↔
      (eventTypeMatch e.event_type = false ∨
       (e.occurred_at.isAware = true ∧
         MAX_FUTURE_DRIFT_SECONDS * 1000 < e.occurred_at.instant - now_ms) ∨
       e.parent_event_id = some e.event_id ∨
       endedLtOcc e = true ∨
       MAX_PAYLOAD_REF_LENGTH < e.payload_ref.length)) ∧
    (validate_event e now_ms).map Prod.fst =
      ((if eventTypeMatch e.event_type then [] else ["event_type"]) ++
       (if e.occurred_at.isAware &&
           decide (MAX_FUTURE_DRIFT_SECONDS * 1000 < e.occurred_at.instant - now_ms) then
          ["occurred_at"] else []) ++
       (if e.parent_event_id = some e.event_id then ["parent_event_id"] else []) ++
       (if endedLtOcc e then ["ended_at"] else []) ++
       (if MAX_PAYLOAD_REF_LENGTH < e.payload_ref.length then ["payload_ref"] else [])) := by
  clear htz
  constructor
  · rw [is_valid_false_iff, validate_event]
    cases hA : e.occurred_at.isAware <;>
      (simp only [ne_eq, List.append_eq_nil, vErrType_eq_nil_iff, vErrDrift_eq_nil_iff,
        vErrParent_eq_nil_iff, vErrEnded_eq_nil_iff, vErrPayload_eq_nil_iff, not_and_or,
        not_not, Bool.not_eq_true, Bool.not_eq_false, hA]
       simp only [show (false = true) = False from by simp, show (true = true) = True from by simp,
        false_and, true_and, not_false_eq_true, false_or, true_or, or_false, or_true]
       tauto)
  · rw [validate_event]
    simp only [List.map_append]
    rw [vErrType_fields, vErrDrift_fields, vErrParent_fields, vErrEnded_fields,
      vErrPayload_fields]

/-- Witness for `validate_event_spec`: a self-parented event at wall
clock 0. -/
theorem validate_event_spec_witness :
    tzConsistent { c1Event with parent_event_id := some "e1" } = true ∧
    ((is_valid (validate_event { c1Event with parent_event_id := some "e1" } 0) = false ↔
      (eventTypeMatch ({ c1Event with parent_event_id := some "e1" } : Event).event_type
          = false ∨
       (({ c1Event with parent_event_id := some "e1" } : Event).occurred_at.isAware = true ∧
         MAX_FUTURE_DRIFT_SECONDS * 1000 <
           ({ c1Event with parent_event_id := some "e1" } : Event).occurred_at.instant - 0) ∨
       ({ c1Event with parent_event_id := some "e1" } : Event).parent_event_id =
         some ({ c1Event with parent_event_id := some "e1" } : Event).event_id ∨
       endedLtOcc { c1Event with parent_event_id := some "e1" } = true ∨
       MAX_PAYLOAD_REF_LENGTH <
         ({ c1Event with parent_event_id := some "e1" } : Event).payload_ref.length)) ∧
    (validate_event { c1Event with parent_event_id := some "e1" } 0).map Prod.fst =
      ((if eventTypeMatch ({ c1Event with parent_event_id := some "e1" } : Event).event_type
          then [] else ["event_type"]) ++
       (if ({ c1Event with parent_event_id := some "e1" } : Event).occurred_at.isAware &&
           decide (MAX_FUTURE_DRIFT_SECONDS * 1000 <
             ({ c1Event with parent_event_id := some "e1" } : Event).occurred_at.instant - 0)
          then ["occurred_at"] else []) ++
       (if ({ c1Event with parent_event_id := some "e1" } : Event).parent_event_id =
           some ({ c1Event with parent_event_id := some "e1" } : Event).event_id
          then ["parent_event_id"] else []) ++
       (if endedLtOcc { c1Event with parent_event_id := some "e1" } then
          ["ended_at"] else []) ++
       (if MAX_PAYLOAD_REF_LENGTH <
           ({ c1Event with parent_event_id := some "e1" } : Event).payload_ref.length
          then ["payload_ref"] else []))) :=
  ⟨by decide, validate_event_spec { c1Event with parent_event_id := some "e1" } 0 (by decide)⟩

/-- C10: when `occurred_at` is timezone-naive the future-drift check
is skipped entirely — no `occurred_at` error is ever produced, whatever
the wall clock — and if the other four rules pass, the event is valid
(`!otherRulesOk e || is_valid (...)` is the boolean rendering of that
implication). -/
theorem naive_occurred_at_skips_drift (e : Event) (now_ms : Int)
    (hnaive : e.occurred_at.tzOffsetMin = none) :
    "occurred_at" ∉ (validate_event e now_ms).map Prod.fst ∧
    (!otherRulesOk e || is_valid (validate_event e now_ms)) = true := by
  have hdrift : vErrDrift e now_ms = [] := by
    rw [vErrDrift_eq_nil_iff]
    simp [PyDateTime.isAware, hnaive]
  constructor
  · intro hmem
    rw [validate_event] at hmem
    simp only [List.map_append, List.mem_append, hdrift] at hmem
    rw [vErrType_fields, vErrParent_fields, vErrEnded_fields, vErrPayload_fields] at hmem
    rcases hmem with ((((h | h) | h) | h) | h)
    · revert h; split <;> simp
    · simp at h
    · revert h; split <;> simp
    · revert h; split <;> simp
    · revert h; split <;> simp
  · cases ho : otherRulesOk e with
    | false => simp
    | true =>
        simp only [otherRulesOk, Bool.and_eq_true] at ho
        obtain ⟨⟨⟨hty, hpar⟩, hed⟩, hpl⟩ := ho
        have h1 : vErrType e = [] := (vErrType_eq_nil_iff e).mpr hty
        have h3 : vErrParent e = [] := by
          rw [vErrParent_eq_nil_iff]
          revert hpar
          cases hp : e.parent_event_id with
          | none => simp [hp]
          | some p =>
              simp only [Bool.not_eq_true', Option.some.injEq, decide_eq_false_iff_not]
              exact fun h => h
        have h4 : vErrEnded e = [] := by
          rw [vErrEnded_eq_nil_iff, endedLtOcc]
          revert hed
          cases hd : e.ended_at with
          | none => simp
          | some ed => simp
        have h5 : vErrPayload e = [] := by
          rw [vErrPayload_eq_nil_iff]
          simpa using hpl
        simp [validate_event, is_valid, h1, hdrift, h3, h4, h5]

/-- Witness for `naive_occurred_at_skips_drift`: a naive timestamp one
million seconds in the future is accepted. -/
theorem naive_occurred_at_skips_drift_witness :
    ({ c1Event with occurred_at := { wall := 1000000000, tzOffsetMin := none } }
        : Event).occurred_at.tzOffsetMin = none ∧
    ("occurred_at" ∉ (validate_event
        { c1Event with occurred_at := { wall := 1000000000, tzOffsetMin := none } } 0).map
          Prod.fst ∧
      (!otherRulesOk
          { c1Event with occurred_at := { wall := 1000000000, tzOffsetMin := none } } ||
        is_valid (validate_event
          { c1Event with occurred_at := { wall := 1000000000, tzOffsetMin := none } } 0)) =
        true) :=
  ⟨by decide,
    naive_occurred_at_skips_drift
      { c1Event with occurred_at := { wall := 1000000000, tzOffsetMin := none } } 0
      (by decide)⟩

theorem rat_max_getD_spec (l : List ℚ) (h : l ≠ []) :
    l.max?.getD 0 ∈ l ∧ ∀ b ∈ l, b ≤ l.max?.getD 0 := by
  cases hm : l.max? with
  | none => exact absurd (List.max?_eq_none_iff.mp hm) h
  | some m =>
      have hanti : Std.Antisymm (fun x1 x2 : ℚ => x1 ≤ x2) := by
        constructor
        intro a b h1 h2
        exact le_antisymm h1 h2
      have hspec := (@List.max?_eq_some_iff ℚ m _ _ hanti
        (fun a => le_refl a) (fun a b => max_choice a b) (fun a b c => max_le_iff) l).mp hm
      simpa using hspec

theorem rawIntentScores_lb (query : String) :
    ∀ p ∈ rawIntentScores query, (2 / 5 : ℚ) ≤ p.2 := by
  intro p hp
  rw [rawIntentScores] at hp
  simp only [List.mem_filterMap] at hp
  obtain ⟨q, hq, hf⟩ := hp
  revert hf
  split_ifs with hmc
  · intro hf
    rw [Option.some_inj] at hf
    rw [← hf]
    have h1 : (1 : ℚ) ≤ ((q.2.filter fun kw =>
        substrMatch kw query.toLower).length : ℚ) := by
      exact_mod_cast hmc
    refine le_min (by norm_num) ?_
    calc (2 / 5 : ℚ) = 1 * (2 / 5) := by ring
    _ ≤ ((q.2.filter fun kw => substrMatch kw query.toLower).length : ℚ) * (2 / 5) := by
        apply mul_le_mul_of_nonneg_right h1
        norm_num
  · intro hf
    cases hf

set_option maxRecDepth 4096 in
/-- C8: if no intent keyword matches, `classify_intent` returns
exactly `{GENERAL: 0.5}`; otherwise it returns every matched intent's
raw score `min(1, match_count·0.4)` divided by the maximum raw score, so
that the maximum confidence in the output is exactly 1. -/
theorem classify_intent_spec (query : String) :
    if (rawIntentScores query).isEmpty then
      classify_intent query = [(IntentType.GENERAL, 1 / 2)]
    else
      classify_intent query =
        (rawIntentScores query).map
          (fun p => (p.1, p.2 / (((rawIntentScores query).map Prod.snd).max?).getD 0)) ∧
      1 ∈ (classify_intent query).map Prod.snd ∧
      ((classify_intent query).map Prod.snd).all (fun x => decide (x ≤ 1)) = true := by
  by_cases hemp : (rawIntentScores query).isEmpty = true
  · simp only [hemp, if_true]
    simp only [classify_intent, hemp, if_true]
  · simp only [hemp, if_false]
    have hne : rawIntentScores query ≠ [] := fun hl => hemp (by rw [hl]; rfl)
    have hmapne : (rawIntentScores query).map Prod.snd ≠ [] := by
      simpa using hne
    obtain ⟨hmem, hub⟩ := rat_max_getD_spec _ hmapne
    obtain ⟨p0, hp0, hp0eq⟩ := List.mem_map.mp hmem
    have hMlb : (2 / 5 : ℚ) ≤ (((rawIntentScores query).map Prod.snd).max?).getD 0 :=
      hp0eq ▸ rawIntentScores_lb query p0 hp0
    have hMpos : 0 < (((rawIntentScores query).map Prod.snd).max?).getD 0 :=
      lt_of_lt_of_le (by norm_num) hMlb
    have hcl : classify_intent query =
        (rawIntentScores query).map
          (fun p => (p.1, p.2 / (((rawIntentScores query).map Prod.snd).max?).getD 0)) := by
      rw [classify_intent]
      simp only [hemp, Bool.false_eq_true, if_false, hMpos, if_true]
    refine ⟨hcl, ?_, ?_⟩
    · rw [hcl]
      simp only [List.map_map]
      refine List.mem_map.mpr ⟨p0, hp0, ?_⟩
      simp only [Function.comp_apply]
      rw [hp0eq]
      exact div_self (ne_of_gt hMpos)
    · rw [hcl]
      simp only [List.map_map, List.all_eq_true]
      intro v hv
      simp only [List.mem_map, Function.comp_apply] at hv
      obtain ⟨q, hq, hqeq⟩ := hv
      rw [← hqeq, decide_eq_true_eq]
      exact (div_le_one hMpos).mpr (hub _ (List.mem_map.mpr ⟨q, hq, rfl⟩))

/-- C4: with a positive base stability and nonnegative access boost
(the defaults are 168 h and 24 h), the recency score `R = exp(-t/S)`,
`S = s_base + access_count·s_boost`, is non-increasing as the clock
advances (fixed access count) and non-decreasing in the access count
(fixed clock; the age is clamped to `≥ 0` inside the function). -/
theorem compute_recency_monotone (occ : ℝ) (la : Option ℝ) (s_base s_boost : ℝ)
    (hb : 0 < s_base) (hboost : 0 ≤ s_boost)
    (now1 now2 : ℝ) (ac ac1 ac2 : ℕ)
    (hnow : now1 ≤ now2) (hac : ac1 ≤ ac2) :
    compute_recency_score occ ac s_base s_boost now2 la ≤
      compute_recency_score occ ac s_base s_boost now1 la ∧
    compute_recency_score occ ac1 s_base s_boost now1 la ≤
      compute_recency_score occ ac2 s_base s_boost now1 la := by
  have hstab : ∀ n : ℕ, 0 < s_base + (n : ℝ) * s_boost := fun n =>
    lt_of_lt_of_le hb (le_add_of_nonneg_right (mul_nonneg (Nat.cast_nonneg n) hboost))
  constructor
  · simp only [compute_recency_score]
    rw [if_neg (not_le.mpr (hstab ac)), if_neg (not_le.mpr (hstab ac))]
    apply Real.exp_le_exp.mpr
    rw [neg_div, neg_div, neg_le_neg_iff]
    apply (div_le_div_right (hstab ac)).mpr
    apply max_le_max le_rfl
    apply (div_le_div_right (by norm_num : (0:ℝ) < 3600)).mpr
    linarith
  · simp only [compute_recency_score]
    rw [if_neg (not_le.mpr (hstab ac1)), if_neg (not_le.mpr (hstab ac2))]
    apply Real.exp_le_exp.mpr
    rw [neg_div, neg_div, neg_le_neg_iff]
    have hS : s_base + (ac1 : ℝ) * s_boost ≤ s_base + (ac2 : ℝ) * s_boost :=
      add_le_add_left (mul_le_mul_of_nonneg_right (Nat.cast_le.mpr hac) hboost) s_base
    exact div_le_div_of_nonneg_left (le_max_left 0 _) (hstab ac1) hS

/-- Witness for `compute_recency_monotone` at the default stability
parameters, one/two accesses, and ages of one and two hours. -/
theorem compute_recency_monotone_witness :
    ((0 : ℝ) < 168 ∧ (0 : ℝ) ≤ 24 ∧ (3600 : ℝ) ≤ 7200 ∧ (1 : ℕ) ≤ 2) ∧
    (compute_recency_score 0 0 168 24 7200 none ≤
        compute_recency_score 0 0 168 24 3600 none ∧
      compute_recency_score 0 1 168 24 3600 none ≤
        compute_recency_score 0 2 168 24 3600 none) :=
  ⟨⟨by norm_num, by norm_num, by norm_num, by norm_num⟩,
    ⟨(compute_recency_monotone 0 none 168 24 (by norm_num) (by norm_num)
        3600 7200 0 1 2 (by norm_num) (by norm_num)).1,
      (compute_recency_monotone 0 none 168 24 (by norm_num) (by norm_num)
        3600 7200 0 1 2 (by norm_num) (by norm_num)).2⟩⟩

theorem bestStep_fold_none (canonical normalized : String) (es : List EntityRec)
    (acc : ℚ × Option EntityRec)
    (h : (es.foldl (bestStep canonical normalized) acc).2 = none) :
    es.foldl (bestStep canonical normalized) acc = acc := by
  induction es generalizing acc with
  | nil => rfl
  | cons e es ih =>
      rw [List.foldl_cons] at h ⊢
      rcases hstep : bestStep canonical normalized acc e with ⟨s, oe⟩
      rw [hstep] at h
      have hfold := ih (s, oe) h
      rw [hfold] at h ⊢
      rw [bestStep] at hstep
      split_ifs at hstep with himp
      · rw [Prod.mk.injEq] at hstep
        rw [← hstep.2] at h
        cases h
      · exact hstep.symm

/-- C9, amended: the tier-2 fuzzy resolver returns a result iff the
best similarity over the existing entities reaches the 0.9 threshold; on
a match the action is SAME_AS when the entity types agree and RELATED_TO
when they differ, never MERGE, and the confidence is the best similarity
score rounded half-to-even at 4 decimal places. -/
theorem resolve_close_match_spec (name entity_type : String) (es : List EntityRec) :
    if (9 / 10 : ℚ) ≤ (bestPair name es).1 then
      ∃ be r, (bestPair name es).2 = some be ∧
        resolve_close_match name entity_type es = some r ∧
        r.action = (if be.entity_type.getD "" = entity_type then
          EntityResolutionAction.SAME_AS else EntityResolutionAction.RELATED_TO) ∧
        r.confidence = roundTo4 (bestPair name es).1 ∧
        r.action ≠ EntityResolutionAction.MERGE
    else resolve_close_match name entity_type es = none := by
  split_ifs with hth
  · cases hbp : (bestPair name es).2 with
    | none =>
        exfalso
        have hfold := bestStep_fold_none (resolve_alias name)
          (normalize_entity_name name) es ((0, none)) hbp
        rw [bestPair, hfold] at hth
        norm_num at hth
    | some be =>
        have hres : resolve_close_match name entity_type es =
            some { action := if be.entity_type.getD "" = entity_type then
                     EntityResolutionAction.SAME_AS else EntityResolutionAction.RELATED_TO,
                   canonical_name := resolve_alias (be.name.getD ""),
                   entity_type := be.entity_type.getD entity_type,
                   confidence := roundTo4 (bestPair name es).1,
                   justification := "Fuzzy match '" ++ resolve_alias name ++ "' ~ '" ++
                     resolve_alias (be.name.getD "") ++ "'" } := by
          rw [resolve_close_match]
          simp only [hbp]
          rw [if_pos hth]
        refine ⟨be, _, rfl, hres, rfl, rfl, ?_⟩
        split_ifs <;> simp
  · cases hbp : (bestPair name es).2 with
    | none =>
        rw [resolve_close_match]
        simp only [hbp]
    | some be =>
        rw [resolve_close_match]
        simp only [hbp]
        rw [if_neg hth]

set_option maxRecDepth 16384 in
set_option maxHeartbeats 4000000 in
unseal Rat.mul Rat.add Rat.sub Rat.inv in
/-- C9 counterexample: for the candidate `"abcde"` against the
existing entity `"abcdef"` of the same type, the best similarity is
`10/11` and the returned confidence is `round(10/11, 4) = 0.9091`, which
is not equal to the similarity score — so "confidence equal to the
similarity score" fails as stated. -/
theorem resolve_close_match_round_counterexample :
    (bestPair "abcde" [⟨some "abcdef", some "tool"⟩]).1 = 10 / 11 ∧
    ((resolve_close_match "abcde" "tool" [⟨some "abcdef", some "tool"⟩]).map
      (fun r => r.confidence)) = some (9091 / 10000) ∧
    ((9091 : ℚ) / 10000) ≠ 10 / 11 ∧
    ((resolve_close_match "abcde" "tool" [⟨some "abcdef", some "tool"⟩]).map
      (fun r => r.action)) = some EntityResolutionAction.SAME_AS :=
  ⟨by decide, by decide, by decide, by decide⟩

theorem bump_cons (a : String) (rest : List String) (now : Int) (g : GraphDB) :
    bump_access_counts (a :: rest) now g =
      bump_access_counts rest now (fun x =>
        if x = a then
          (g x).map fun n =>
            { access_count := some (n.access_count.getD 0 + 1),
              last_accessed_at := some now }
        else g x) := rfl

theorem bump_not_mem (ids : List String) (now : Int) (g : GraphDB) (x : String)
    (hx : x ∉ ids) : bump_access_counts ids now g x = g x := by
  induction ids generalizing g with
  | nil => rfl
  | cons a rest ih =>
      rw [bump_cons]
      have hxa : x ≠ a := fun h => hx (h ▸ List.mem_cons_self a rest)
      have hrest : x ∉ rest := fun h => hx (List.mem_cons_of_mem a h)
      rw [ih _ hrest]
      simp [hxa]

theorem bump_mem (ids : List String) (now : Int) (g : GraphDB) (eid : String)
    (n : GNode) (hmem : eid ∈ ids) (hg : g eid = some n) :
    ∃ n', bump_access_counts ids now g eid = some n' ∧
      n.access_count.getD 0 + 1 ≤ n'.access_count.getD 0 ∧
      n'.last_accessed_at = some now := by
  induction ids generalizing g n with
  | nil => cases hmem
  | cons a rest ih =>
      rw [bump_cons]
      set g1 : GraphDB := fun x =>
        if x = a then
          (g x).map fun m =>
            { access_count := some (m.access_count.getD 0 + 1),
              last_accessed_at := some now }
        else g x with hg1
      by_cases hxa : eid = a
      · have hgeid : g1 eid =
            some { access_count := some (n.access_count.getD 0 + 1),
                   last_accessed_at := some now } := by
          rw [hg1]
          show (if eid = a then
              (g eid).map fun m =>
                { access_count := some (m.access_count.getD 0 + 1),
                  last_accessed_at := some now }
            else g eid) = _
          rw [if_pos hxa, hg]
          rfl
        by_cases hrest : eid ∈ rest
        · obtain ⟨n', h1, h2, h3⟩ := ih g1 _ hrest hgeid
          refine ⟨n', h1, ?_, h3⟩
          simp only [Option.getD_some] at h2
          omega
        · rw [bump_not_mem rest now _ eid hrest]
          exact ⟨_, hgeid, le_refl _, rfl⟩
      · have hgeid : g1 eid = some n := by
          rw [hg1]
          show (if eid = a then
              (g eid).map fun m =>
                { access_count := some (m.access_count.getD 0 + 1),
                  last_accessed_at := some now }
            else g eid) = _
          rw [if_neg hxa]
          exact hg
        have hrest : eid ∈ rest := by
          rcases List.mem_cons.mp hmem with h | h
          · exact absurd h hxa
          · exact h
        exact ih g1 n hrest hgeid

theorem dictInsert_keys {α : Type} (k x : String) (v : α) (d : List (String × α))
    (h : x ∈ (dictInsert k v d).map Prod.fst) :
    x = k ∨ x ∈ d.map Prod.fst := by
  rw [dictInsert] at h
  split_ifs at h with hin
  · rcases List.mem_map.mp h with ⟨p, hp, hpx⟩
    rcases List.mem_map.mp hp with ⟨q, hq, hqp⟩
    by_cases hqk : q.1 = k
    · left
      rw [← hpx, ← hqp]
      simp [hqk]
    · right
      rw [← hpx, ← hqp]
      simp only [if_neg hqk]
      exact List.mem_map.mpr ⟨q, hq, rfl⟩
  · rw [List.map_append, List.mem_append] at h
    rcases h with h | h
    · right; exact h
    · left; simpa using h

theorem dict_fold_keys {π : Type} (eidOf : π → String) (items : List π)
    (d : List (String × π)) (x : String)
    (h : x ∈ (items.foldl (fun d r => dictInsert (eidOf r) r d) d).map Prod.fst) :
    x ∈ d.map Prod.fst ∨ x ∈ items.map eidOf := by
  induction items generalizing d with
  | nil => exact Or.inl h
  | cons r rest ih =>
      rw [List.foldl_cons] at h
      rcases ih _ h with h' | h'
      · rcases dictInsert_keys _ _ _ _ h' with h'' | h''
        · right; rw [h'']; exact List.mem_cons_self _ _
        · left; exact h''
      · right; exact List.mem_cons_of_mem _ h'

/-- C2, amended: after assembly, `get_context` and `get_lineage`
bump `access_count` by at least 1 and set `last_accessed_at := now` on
every returned event node, via the batched update; `get_subgraph`
applies the same batched update, but only to the returned nodes whose
id starts with `"evt"` — a returned event node whose id lacks that
prefix is left untouched (see the counterexample). -/
theorem retrieval_bumps_access_counts {π : Type}
    (now : Int) (g : GraphDB)
    (records : List π) (eidOf : π → String) (decayOf : π → ℚ) (maxn : Nat)
    (lrecords : List (List π × List (String × String)))
    (seedrs : List π) (useeds : List String) (fetch : String → Option π)
    (nbrs : String → List (SgNeighbor π)) (ew : List (String × ℚ)) (maxs : Nat)
    (eidC eidL eidS : String) (nC nL nS : GNode)
    (hC1 : eidC ∈ (get_context_model records eidOf decayOf maxn now g).1.map Prod.fst)
    (hC2 : g eidC = some nC)
    (hL1 : eidL ∈ (get_lineage_model lrecords eidOf now g).1.map Prod.fst)
    (hL2 : g eidL = some nL)
    (hS1 : eidS ∈
      (get_subgraph_model seedrs useeds fetch nbrs eidOf decayOf ew maxs now g).1.map
        Prod.fst)
    (hS2 : g eidS = some nS)
    (hS3 : eidS.toList.take 3 = "evt".toList) :
    (∃ n', (get_context_model records eidOf decayOf maxn now g).2 eidC = some n' ∧
      nC.access_count.getD 0 + 1 ≤ n'.access_count.getD 0 ∧
      n'.last_accessed_at = some now) ∧
    (∃ n', (get_lineage_model lrecords eidOf now g).2.2 eidL = some n' ∧
      nL.access_count.getD 0 + 1 ≤ n'.access_count.getD 0 ∧
      n'.last_accessed_at = some now) ∧
    (∃ n', (get_subgraph_model seedrs useeds fetch nbrs eidOf decayOf ew maxs
        now g).2.2 eidS = some n' ∧
      nS.access_count.getD 0 + 1 ≤ n'.access_count.getD 0 ∧
      n'.last_accessed_at = some now) := by
  refine ⟨?_, ?_, ?_⟩
  · have hkeys : eidC ∈
        (((pySort (fun x y => decide (decayOf y ≤ decayOf x)) records).take maxn).map
          eidOf) := by
      rcases dict_fold_keys eidOf _ [] eidC hC1 with h | h
      · cases h
      · exact h
    exact bump_mem _ now g eidC nC hkeys hC2
  · exact bump_mem _ now g eidL nL hL1 hL2
  · have hfilter : eidS ∈
        ((get_subgraph_model seedrs useeds fetch nbrs eidOf decayOf ew maxs
          now g).1.map Prod.fst).filter
            (fun nid => nid.toList.take 3 = "evt".toList) :=
      List.mem_filter.mpr ⟨hS1, by simpa using hS3⟩
    exact bump_mem _ now g eidS nS hfilter hS2

/-- Witness for `retrieval_bumps_access_counts`: a store holding the
node `"evt1"`, returned by all three retrievals. -/
theorem retrieval_bumps_access_counts_witness :
    ("evt1" ∈ (get_context_model ["evt1"] (fun s => s) (fun _ => 1) 5 42
        c2GoodG).1.map Prod.fst ∧
      c2GoodG "evt1" = some ⟨some 0, none⟩ ∧
      "evt1" ∈ (get_lineage_model [(["evt1"], [])] (fun s => s) 42
        c2GoodG).1.map Prod.fst ∧
      "evt1" ∈ (get_subgraph_model ["evt1"] [] (fun _ => none) (fun _ => [])
        (fun s => s) (fun _ => 1) [] 5 42 c2GoodG).1.map Prod.fst ∧
      ("evt1" : String).toList.take 3 = "evt".toList) ∧
    ((∃ n', (get_context_model ["evt1"] (fun s => s) (fun _ => 1) 5 42
        c2GoodG).2 "evt1" = some n' ∧
      (⟨some 0, none⟩ : GNode).access_count.getD 0 + 1 ≤ n'.access_count.getD 0 ∧
      n'.last_accessed_at = some 42) ∧
    (∃ n', (get_lineage_model [(["evt1"], [])] (fun s => s) 42
        c2GoodG).2.2 "evt1" = some n' ∧
      (⟨some 0, none⟩ : GNode).access_count.getD 0 + 1 ≤ n'.access_count.getD 0 ∧
      n'.last_accessed_at = some 42) ∧
    (∃ n', (get_subgraph_model ["evt1"] [] (fun _ => none) (fun _ => [])
        (fun s => s) (fun _ => 1) [] 5 42 c2GoodG).2.2 "evt1" = some n' ∧
      (⟨some 0, none⟩ : GNode).access_count.getD 0 + 1 ≤ n'.access_count.getD 0 ∧
      n'.last_accessed_at = some 42)) :=
  ⟨⟨by decide, by decide, by decide, by decide, by decide⟩,
    retrieval_bumps_access_counts 42 c2GoodG ["evt1"] (fun s => s) (fun _ => 1) 5
      [(["evt1"], [])] ["evt1"] [] (fun _ => none) (fun _ => []) [] 5
      "evt1" "evt1" "evt1" ⟨some 0, none⟩ ⟨some 0, none⟩ ⟨some 0, none⟩
      (by decide) (by decide) (by decide) (by decide) (by decide) (by decide)
      (by decide)⟩

/-- C2 counterexample: `get_subgraph` returns the event node
`"a1b2"` (a UUID-style id, as the data model prescribes) but bumps
nothing: after the retrieval the node still has `access_count = 0` and
no `last_accessed_at`, violating `access_count_after ≥
access_count_before + 1` for a returned event node. -/
theorem get_subgraph_no_bump_counterexample :
    (get_subgraph_model ["a1b2"] [] (fun _ => none) (fun _ => [])
      (fun s => s) (fun _ => 1) [] 10 777 c2BadG).1.map Prod.fst = ["a1b2"] ∧
    (get_subgraph_model ["a1b2"] [] (fun _ => none) (fun _ => [])
      (fun s => s) (fun _ => 1) [] 10 777 c2BadG).2.2 "a1b2" =
      some ⟨some 0, none⟩ ∧
    ¬((0 : Int) + 1 ≤ 0) :=
  ⟨by decide, by decide, by decide⟩

end Engram
